import Mathlib

/-!
Verification of the geographic-linkage pipeline of the `ascending` repository
(`src/converter.py`, `src/main.py`, `src/merge_data.py`) against its design
specification.  The Python data flow is shallowly embedded: tables are lists of
typed rows, pandas/geopandas operations (`merge(how="left")`,
`sjoin_nearest(how="left")`, `astype`, `.str.zfill`) are modelled by their
documented semantics, and the exceptional paths are modelled with `Except`.
Planar distances are represented by squared Euclidean distances over integer
coordinates: squaring is strictly monotone on nonnegative reals, so nearest
neighbours, ties and minimum-distance statements are unchanged.
-/

namespace Ascending

/-! ## Python string/number primitives

Models of the Python / pandas string operations the pipeline uses on join
keys: `str.zfill`, `int(...)` on decimal strings, and `str(...)` on ints.
-/

/-- Numeric value of a decimal digit character, as Python computes it
(`ord(c) - 48`); only meaningful on `'0'..'9'`. -/
def digitVal (c : Char) : Nat := c.toNat - 48

/-- `c` is an ASCII decimal digit (`ord` between 48 and 57). -/
def isDigitChar (c : Char) : Prop := 48 ≤ c.toNat ∧ c.toNat ≤ 57

instance (c : Char) : Decidable (isDigitChar c) := by
  unfold isDigitChar; infer_instance

/-- All characters of the list are decimal digits. -/
def digitsOnly (l : List Char) : Prop := ∀ c ∈ l, isDigitChar c

instance (l : List Char) : Decidable (digitsOnly l) := by
  unfold digitsOnly; infer_instance

/-- Value of a big-endian decimal digit list, the way Python's `int` folds
over a digit string: `int("137") = ((0*10+1)*10+3)*10+7`. -/
def pyIntL (l : List Char) : Nat := l.foldl (fun a c => 10 * a + digitVal c) 0

/-- Python `int(s)` on a plain (unsigned) decimal string. -/
def pyInt (s : String) : Nat := pyIntL s.data

/-- Python `str.zfill` on a character list: left-pad with `'0'` to width `w`;
a leading `'+'`/`'-'` sign stays in front of the inserted padding, and a
string at least `w` long is returned unchanged (the padding count is then 0). -/
def zfillL (w : Nat) (l : List Char) : List Char :=
  match l with
  | [] => List.replicate w '0'
  | c :: rest =>
      if c = '+' ∨ c = '-' then
        c :: (List.replicate (w - (rest.length + 1)) '0' ++ rest)
      else
        List.replicate (w - (rest.length + 1)) '0' ++ (c :: rest)

/-- Python `str.zfill` on a string. -/
def zfill (w : Nat) (s : String) : String := ⟨zfillL w s.data⟩

/-- Big-endian decimal digit character list of `n`, the way Python's
`str(...)` renders a nonnegative int (`"0"` for zero, no leading zeros
otherwise). -/
def natReprL (n : Nat) : List Char :=
  if n = 0 then ['0'] else ((Nat.digits 10 n).reverse.map Nat.digitChar)

/-- Python `str(n)` for a nonnegative int `n`. -/
def natRepr (n : Nat) : String := ⟨natReprL n⟩

/-- Python `str(n)` for an int `n` (sign prefix for negatives). -/
def intRepr (n : Int) : String :=
  if n < 0 then ⟨'-' :: natReprL n.natAbs⟩ else natRepr n.natAbs

/-- Python `int(s)` on a stripped string: an optional `-` sign followed by at
least one decimal digit; anything else is not a valid int literal. -/
def parseIntStr (l : List Char) : Option Int :=
  match l with
  | '-' :: rest =>
      if rest ≠ [] ∧ digitsOnly rest then some (-(pyIntL rest : Int)) else none
  | _ => if l ≠ [] ∧ digitsOnly l then some ((pyIntL l : Int)) else none

/-- The string has no leading zero (the unique minimal decimal form). -/
def leadZeroFree (l : List Char) : Prop := l.head? ≠ some '0' ∨ l = ['0']

instance (l : List Char) : Decidable (leadZeroFree l) := by
  unfold leadZeroFree; infer_instance

/-! ## Cells, errors, and fallible column maps -/

/-- A pandas cell value as far as the linkage pipeline distinguishes them:
an integer-valued cell, a string cell, or a missing value (`NaN`). -/
inductive CellVal where
  | cInt (n : Int)
  | cStr (s : String)
  | cNull
deriving DecidableEq

/-- The error taxonomy of the specification (section 7). -/
inductive PipeError where
  | DataLoadError (msg : String)
  | GeometryError (msg : String)
  | JoinKeyError (msg : String)
  | TypeConversionError (msg : String)
deriving DecidableEq

/-- Pandas `astype(str)` on one cell: ints render via `str`, strings stay,
and a missing value renders as the string `"nan"`. -/
def pyStrCell : CellVal → String
  | .cInt n => intRepr n
  | .cStr s => s
  | .cNull => "nan"

/-- Pandas `astype(int)` on one cell: an integer stays, a plain decimal
string parses, and a missing (`NaN`) or non-numeric value raises — modelled
as the specification's `TypeConversionError`, never a silent coercion. -/
def toIntCell : CellVal → Except PipeError Int
  | .cInt n => .ok n
  | .cStr s =>
      match parseIntStr s.data with
      | some n => .ok n
      | none => .error (.TypeConversionError "invalid literal for int")
  | .cNull => .error (.TypeConversionError "cannot convert NA to integer")

/-- Row-wise fallible map over a column, propagating the first raised error —
the behaviour of a pandas `astype` applied to a whole column. -/
def mapE (f : α → Except PipeError β) : List α → Except PipeError (List β)
  | [] => .ok []
  | x :: xs => do
      let y ← f x
      let ys ← mapE f xs
      pure (y :: ys)

/-- Join-key match as pandas `merge` performs it: equal values match, but a
missing key (`NaN`) matches nothing, not even another missing key. -/
def keyMatch (a b : CellVal) : Bool := a ≠ CellVal.cNull ∧ a = b

/-! ## Hierarchy Linker (`converter.py`, `link_tract_to_cz`) -/

/-- Row of the demographic lookup as selected by `load_demographic_data`:
`FIPS` (state+county), `Select State`, and the state+county+tract FIPS
column. -/
structure DemoRow where
  FIPS : CellVal
  selectState : Option String
  tractFIPS : CellVal
deriving DecidableEq

/-- Row of the commuting-zone equivalency table as selected by
`load_cz_data`: `Commuting Zone ID, 1990` and `FIPS`. -/
structure CzRow where
  czId1990 : CellVal
  FIPS : CellVal
deriving DecidableEq

/-- Row of `pd.merge(tracts_fips, cz_id, on="FIPS", how="left")`:
the demographic columns plus the joined CZ id, `NaN` when unmatched. -/
structure DemoCzRow where
  FIPS : CellVal
  selectState : Option String
  tractFIPS : CellVal
  czId1990 : CellVal
deriving DecidableEq

/-- Pandas left merge of the demographic table with the CZ table on `FIPS`:
each left row in order, one output row per matching right row (in right
order), and a single null-extended row when nothing matches. -/
def mergeDemoCz (tracts_fips : List DemoRow) (cz_id : List CzRow) :
    List DemoCzRow :=
  tracts_fips.flatMap fun d =>
    match cz_id.filter (fun c => keyMatch d.FIPS c.FIPS) with
    | [] => [⟨d.FIPS, d.selectState, d.tractFIPS, .cNull⟩]
    | ms => ms.map fun c => ⟨d.FIPS, d.selectState, d.tractFIPS, c.czId1990⟩

/-- The configured state allow-list (`['IL', 'IN', 'WI', 'MI']`). -/
def statesList : List String := ["IL", "IN", "WI", "MI"]

/-- The `isin` filter on `Select State`: a missing state is not in the list. -/
def stateAllowed (r : DemoCzRow) : Bool :=
  match r.selectState with
  | some s => statesList.contains s
  | none => false

/-- Output row of the Hierarchy Linker after the reorder and the rename
`{Select State → State, Commuting Zone ID 1990 → CZ_ID, FIPS → County_FIPS,
State-County-Tract FIPS Code → Tract_FIPS}`. -/
structure CzLinkRow where
  State : Option String
  CZ_ID : Int
  County_FIPS : CellVal
  Tract_FIPS : CellVal
deriving DecidableEq

/-- `link_tract_to_cz`: left-merge the demographic table onto the CZ table on
`FIPS`, filter to the state allow-list, cast the CZ id column to int (raising
on missing/non-numeric values), then reorder and rename. -/
def link_tract_to_cz (tracts_fips : List DemoRow) (cz_id : List CzRow) :
    Except PipeError (List CzLinkRow) := do
  let merged := mergeDemoCz tracts_fips cz_id
  let filtered := merged.filter stateAllowed
  let rows ← mapE (fun r => do
    let n ← toIntCell r.czId1990
    pure (⟨r.selectState, n, r.FIPS, r.tractFIPS⟩ : CzLinkRow)) filtered
  pure rows

/-! ## Nearest-Region Linker (`converter.py`, `link_school_to_tract`)

Coordinates are planar integer pairs; `proj` abstracts the
`to_crs(epsg=5070)` reprojection of point geometries and `projP` the (here
unreachable) reprojection of polygon geometries; `rep` abstracts shapely's
`representative_point()` algorithm on polygons.  Distances are squared
planar Euclidean distances (order-isomorphic to the library's distances). -/

/-- A planar coordinate. -/
abbrev Pt := Int × Int

/-- A geometry cell: a polygon (abstract carrier `P`) or a point. -/
inductive GeomVal (P : Type) where
  | poly (p : P)
  | pt (q : Pt)
deriving DecidableEq

/-- `representative_point()`: the library algorithm `rep` on a polygon; the
representative point of a point is the point itself. -/
def repPoint {P : Type} (rep : P → Pt) : GeomVal P → Pt
  | .poly p => rep p
  | .pt q => q

/-- A school row as selected by `load_school_data`:
`{geometry, universal-id}`. -/
structure SchoolRow where
  geometry : Pt
  universalId : String
deriving DecidableEq

/-- A tract row as selected by `load_tract_data`: `{GEOID, geometry}`. -/
structure TractRow (P : Type) where
  GEOID : String
  geometry : GeomVal P
deriving DecidableEq

/-- The caller-visible state of the tract frame after the three column
assignments in `link_school_to_tract`: `inside_point` and `geometry_tract`
are added and the active `geometry` column is overwritten with the
representative points. -/
structure TractRowMut (P : Type) where
  GEOID : String
  geometry : GeomVal P
  inside_point : Pt
  geometry_tract : GeomVal P
deriving DecidableEq

/-- The three in-place column assignments of `link_school_to_tract`. -/
def mutateTracts {P : Type} (rep : P → Pt) (ts : List (TractRow P)) :
    List (TractRowMut P) :=
  ts.map fun t =>
    { GEOID := t.GEOID
      geometry := .pt (repPoint rep t.geometry)
      inside_point := repPoint rep t.geometry
      geometry_tract := t.geometry }

/-- Reprojection of one geometry cell. -/
def mapGeom {P : Type} (proj : Pt → Pt) (projP : P → P) : GeomVal P → GeomVal P
  | .poly p => .poly (projP p)
  | .pt q => .pt (proj q)

/-- `tracts_identifier.to_crs(epsg=5070)`: reprojects the active geometry
column only; the plain columns `inside_point` and `geometry_tract` keep
their original coordinate reference. -/
def toCrsMut {P : Type} (proj : Pt → Pt) (projP : P → P) (m : TractRowMut P) :
    TractRowMut P :=
  { m with geometry := mapGeom proj projP m.geometry }

/-- Squared planar Euclidean distance. -/
def sqDist (a b : Pt) : Int := (a.1 - b.1) ^ 2 + (a.2 - b.2) ^ 2

/-- The point the nearest join measures against for a right row: its active
geometry, which the preceding column assignment always set to a
representative point. -/
def activePt {P : Type} (rep : P → Pt) (m : TractRowMut P) : Pt :=
  repPoint rep m.geometry

/-- The right rows (with positional index) nearest to `g`:
`sjoin_nearest` keeps every equidistant nearest neighbour. -/
def nearestMatches {P : Type} (rep : P → Pt) (ms : List (TractRowMut P))
    (g : Pt) : List (Nat × TractRowMut P) :=
  match (ms.map fun m => sqDist g (activePt rep m)).min? with
  | none => []
  | some d => ms.enum.filter fun jm => decide (sqDist g (activePt rep jm.2) = d)

/-- A row of `sjoin_nearest(school_geometry, tracts_identifier, how="left",
distance_col="distance")`, after the index-aligned `universal-id`
re-attachment and the `GEOID → Tract_FIPS` rename.  `leftIdx` is the pandas
index inherited from the left (school) frame; the joined fields are `none`
when the right frame is empty (kept by the left join).  `distance` holds the
squared planar distance. -/
structure JoinedRow (P : Type) where
  leftIdx : Nat
  geometry : Pt
  index_right : Option Nat
  Tract_FIPS : Option String
  inside_point : Option Pt
  geometry_tract : Option (GeomVal P)
  distance : Option Int
  universalId : Option String
deriving DecidableEq

/-- The output rows `sjoin_nearest` produces for one left point. -/
def sjoinRowsFor {P : Type} (rep : P → Pt) (ms : List (TractRowMut P))
    (ig : Nat × Pt) : List (JoinedRow P) :=
  match nearestMatches rep ms ig.2 with
  | [] => [⟨ig.1, ig.2, none, none, none, none, none, none⟩]
  | nm => nm.map fun jm =>
      ⟨ig.1, ig.2, some jm.1, some jm.2.GEOID, some jm.2.inside_point,
        some jm.2.geometry_tract, some (sqDist ig.2 (activePt rep jm.2)), none⟩

/-- `gpd.sjoin_nearest(left, right, how="left", distance_col="distance")`:
for each left row in order, one output row per nearest right neighbour (all
equidistant nearest neighbours are kept), or a single null-extended row when
the right frame is empty. -/
def sjoinNearest {P : Type} (rep : P → Pt) (schoolGeom : List Pt)
    (ms : List (TractRowMut P)) : List (JoinedRow P) :=
  schoolGeom.enum.flatMap (sjoinRowsFor rep ms)

/-- The tract frame as it enters the join: mutated, then reprojected. -/
def tractsForJoin {P : Type} (rep : P → Pt) (proj : Pt → Pt) (projP : P → P)
    (ts : List (TractRow P)) : List (TractRowMut P) :=
  (mutateTracts rep ts).map (toCrsMut proj projP)

/-- `link_school_to_tract`.  Returns the linked table together with the
caller-visible final state of the `tracts_identifier` argument (the frame is
mutated in place by the column assignments; the later `to_crs` result is
bound to a local name only). -/
def link_school_to_tract {P : Type} (rep : P → Pt) (proj : Pt → Pt)
    (projP : P → P) (school_identifier : List SchoolRow)
    (tracts_identifier : List (TractRow P)) :
    List (JoinedRow P) × List (TractRowMut P) :=
  let original_data := school_identifier.map fun s => (s.universalId, s.geometry)
  let mutated := mutateTracts rep tracts_identifier
  let tractsProj := mutated.map (toCrsMut proj projP)
  let school_geometry := school_identifier.map fun s => proj s.geometry
  let joined := sjoinNearest rep school_geometry tractsProj
  let withId := joined.map fun r =>
    { r with universalId := (original_data.get? r.leftIdx).map Prod.fst }
  (withId, mutated)

/-! ## Pipeline Driver final merge (`converter.py`, `main`, lines 218-228) -/

/-- `astype(str)` on the linker's `Tract_FIPS` column (a nullable string
column): a present string stays, a missing value renders as `"nan"`. -/
def pyStrOptStr : Option String → String
  | some s => s
  | none => "nan"

/-- A row of the final merged table
`pd.merge(school_tracts, tracts_cz, on="Tract_FIPS", how="left")` after both
`Tract_FIPS` columns were cast with `astype(str)`: all school-side columns,
the stringified join key, and the hierarchy columns (null when unmatched). -/
structure MergedRow (P : Type) where
  leftIdx : Nat
  geometry : Pt
  index_right : Option Nat
  inside_point : Option Pt
  geometry_tract : Option (GeomVal P)
  distance : Option Int
  universalId : Option String
  Tract_FIPS : String
  State : Option String
  CZ_ID : Option Int
  County_FIPS : Option CellVal
deriving DecidableEq

/-- The left-merge rows produced for one school-side row: one output row per
right row whose stringified `Tract_FIPS` equals the stringified left key, or
one null-extended row when nothing matches. -/
def driverRowsFor {P : Type} (tracts_cz : List CzLinkRow)
    (l : JoinedRow P) : List (MergedRow P) :=
  match tracts_cz.filter
      (fun c => pyStrCell c.Tract_FIPS == pyStrOptStr l.Tract_FIPS) with
  | [] => [⟨l.leftIdx, l.geometry, l.index_right, l.inside_point,
      l.geometry_tract, l.distance, l.universalId,
      pyStrOptStr l.Tract_FIPS, none, none, none⟩]
  | ms => ms.map fun c => ⟨l.leftIdx, l.geometry, l.index_right,
      l.inside_point, l.geometry_tract, l.distance, l.universalId,
      pyStrOptStr l.Tract_FIPS, c.State, some c.CZ_ID, some c.County_FIPS⟩

/-- The driver's final step: cast `Tract_FIPS` to `str` on both sides
(plain `astype(str)`, no zero-padding), then
`pd.merge(..., on="Tract_FIPS", how="left")`. -/
def driverMerge {P : Type} (school_tracts : List (JoinedRow P))
    (tracts_cz : List CzLinkRow) : List (MergedRow P) :=
  school_tracts.flatMap (driverRowsFor tracts_cz)

/-! ## Spatial Point Loader (`converter.py`, `load_school_data`) -/

/-- A row-oriented input file: a header of column names and rows of cells
addressed by column position. -/
structure CsvFile where
  header : List String
  rows : List (List CellVal)
deriving DecidableEq

/-- Building one school point from one CSV row: `points_from_xy` on the `lon` /
`lat` cells (raising the taxonomy's `GeometryError` on a non-numeric
coordinate) together with the `universal-id` cell. -/
def schoolRowOf (li ti ui : Nat) (row : List CellVal) :
    Except PipeError SchoolRow :=
  match row.getD li .cNull, row.getD ti .cNull with
  | .cInt x, .cInt y =>
      .ok { geometry := (x, y)
            universalId := pyStrCell (row.getD ui .cNull) }
  | _, _ => .error (.GeometryError "non-numeric coordinate")

/-- `load_school_data`: `pd.read_csv` raises on a missing file (modelled as
`file = none`); accessing `school_df.lon` / `school_df.lat` or selecting
`universal-id` raises when the column is absent — per the specification's
taxonomy these are `DataLoadError`s.  The loader is a pure function of the
file contents: it has no effect other than reading. -/
def load_school_data (file : Option CsvFile) :
    Except PipeError (List SchoolRow) :=
  match file with
  | none => .error (.DataLoadError "school data file not found")
  | some f =>
      if "lon" ∈ f.header ∧ "lat" ∈ f.header ∧ "universal-id" ∈ f.header then
        mapE (schoolRowOf (f.header.indexOf "lon") (f.header.indexOf "lat")
          (f.header.indexOf "universal-id")) f.rows
      else .error (.DataLoadError "missing required column")

/-! ### Lemmas about the decimal primitives -/

theorem pyIntL_foldl (a : Nat) (l : List Char) :
    l.foldl (fun a c => 10 * a + digitVal c) a =
      a * 10 ^ l.length + pyIntL l := by
  induction l generalizing a with
  | nil => simp [pyIntL]
  | cons c rest ih =>
      have h2 : pyIntL (c :: rest) = digitVal c * 10 ^ rest.length + pyIntL rest := by
        show List.foldl _ 0 (c :: rest) = _
        rw [List.foldl_cons, ih]
        norm_num
      rw [List.foldl_cons, ih, h2, List.length_cons]
      ring

theorem pyIntL_cons (c : Char) (l : List Char) :
    pyIntL (c :: l) = digitVal c * 10 ^ l.length + pyIntL l := by
  show List.foldl _ 0 (c :: l) = _
  rw [List.foldl_cons, pyIntL_foldl]
  norm_num

theorem digitVal_lt (c : Char) (h : isDigitChar c) : digitVal c < 10 := by
  obtain ⟨h1, h2⟩ := h
  simp only [digitVal]
  omega

theorem pyIntL_lt (l : List Char) (h : digitsOnly l) :
    pyIntL l < 10 ^ l.length := by
  induction l with
  | nil => simp [pyIntL]
  | cons c rest ih =>
      have hc := digitVal_lt c (h c (by simp))
      have hr := ih (fun d hd => h d (by simp [hd]))
      rw [pyIntL_cons]
      simp only [List.length_cons, pow_succ]
      nlinarith

theorem pyIntL_append_zeros (k : Nat) (l : List Char) :
    pyIntL (List.replicate k '0' ++ l) = pyIntL l := by
  induction k with
  | zero => simp
  | succ k ih =>
      have : List.replicate (k + 1) '0' ++ l = '0' :: (List.replicate k '0' ++ l) := by
        simp [List.replicate_succ]
      rw [this, pyIntL_cons, ih]
      simp [digitVal]

/-- `pyIntL` is injective on digit lists of equal length. -/
theorem pyIntL_injective (s t : List Char) (hlen : s.length = t.length)
    (hs : digitsOnly s) (ht : digitsOnly t) (hval : pyIntL s = pyIntL t) :
    s = t := by
  induction s generalizing t with
  | nil => cases t with
    | nil => rfl
    | cons c r => simp at hlen
  | cons c r ih =>
      cases t with
      | nil => simp at hlen
      | cons d u =>
          simp only [List.length_cons, Nat.add_right_cancel_iff] at hlen
          rw [pyIntL_cons, pyIntL_cons, hlen] at hval
          have hB : 0 < 10 ^ u.length := pow_pos (by norm_num) _
          have hru : pyIntL r < 10 ^ u.length := by
            rw [← hlen]; exact pyIntL_lt r (fun x hx => hs x (by simp [hx]))
          have huu : pyIntL u < 10 ^ u.length :=
            pyIntL_lt u (fun x hx => ht x (by simp [hx]))
          have hdc : digitVal c = digitVal d := by
            have e1 : (digitVal c * 10 ^ u.length + pyIntL r) / 10 ^ u.length
                = digitVal c := by
              rw [mul_comm, Nat.mul_add_div hB, Nat.div_eq_of_lt hru, Nat.add_zero]
            have e2 : (digitVal d * 10 ^ u.length + pyIntL u) / 10 ^ u.length
                = digitVal d := by
              rw [mul_comm, Nat.mul_add_div hB, Nat.div_eq_of_lt huu, Nat.add_zero]
            rw [← e1, ← e2, hval]
          have hxy : pyIntL r = pyIntL u := by
            rw [hdc] at hval
            exact Nat.add_left_cancel hval
          have hc : c = d := by
            obtain ⟨h1a, h1b⟩ := hs c (by simp)
            obtain ⟨h2a, h2b⟩ := ht d (by simp)
            have hn : c.toNat = d.toNat := by
              simp only [digitVal] at hdc
              omega
            exact Char.ext (UInt32.toNat.inj hn)
          subst hc
          rw [ih u hlen (fun x hx => hs x (by simp [hx]))
            (fun x hx => ht x (by simp [hx])) hxy]

theorem digitVal_digitChar (d : Nat) (h : d < 10) :
    digitVal (Nat.digitChar d) = d := by
  interval_cases d <;> rfl

theorem isDigitChar_digitChar (d : Nat) (h : d < 10) :
    isDigitChar (Nat.digitChar d) := by
  interval_cases d <;> exact ⟨by decide, by decide⟩

theorem pyIntL_digitChars (ds : List Nat) (h : ∀ d ∈ ds, d < 10) :
    pyIntL (ds.map Nat.digitChar) = Nat.ofDigits 10 ds.reverse := by
  induction ds with
  | nil => simp [pyIntL, Nat.ofDigits]
  | cons d rest ih =>
      rw [List.map_cons, pyIntL_cons, List.length_map,
        ih (fun x hx => h x (by simp [hx]))]
      rw [List.reverse_cons, Nat.ofDigits_append]
      simp only [List.length_reverse, Nat.ofDigits_singleton]
      rw [digitVal_digitChar d (h d (by simp))]
      ring

/-- Parsing the decimal rendering gives back the number. -/
theorem pyIntL_natReprL (n : Nat) : pyIntL (natReprL n) = n := by
  by_cases h : n = 0
  · subst h; rfl
  · unfold natReprL
    rw [if_neg h, pyIntL_digitChars _ (fun d hd =>
        Nat.digits_lt_base (by norm_num) (List.mem_reverse.mp hd))]
    rw [List.reverse_reverse, Nat.ofDigits_digits]

theorem natReprL_digitsOnly (n : Nat) : digitsOnly (natReprL n) := by
  by_cases h : n = 0
  · subst h
    intro c hc
    have he : natReprL 0 = ['0'] := rfl
    rw [he, List.mem_singleton] at hc
    subst hc
    exact ⟨by decide, by decide⟩
  · intro c hc
    simp only [natReprL, if_neg h, List.mem_map, List.mem_reverse] at hc
    obtain ⟨d, hd, rfl⟩ := hc
    exact isDigitChar_digitChar d (Nat.digits_lt_base (by norm_num) hd)

theorem natDigits_length_le (n k : Nat) (hn : n ≠ 0) (h : n < 10 ^ k) :
    (Nat.digits 10 n).length ≤ k := by
  by_contra hlt
  push_neg at hlt
  have h1 : (10 : ℕ) ^ (Nat.digits 10 n).length ≤ 10 * n :=
    Nat.base_pow_length_digits_le 10 n (by norm_num) hn
  have h2 : (10 : ℕ) ^ (k + 1) ≤ 10 ^ (Nat.digits 10 n).length :=
    Nat.pow_le_pow_right (by norm_num) hlt
  rw [pow_succ] at h2
  omega

theorem natReprL_length_le (n k : Nat) (h : n < 10 ^ k) (hk : 0 < k) :
    (natReprL n).length ≤ k := by
  by_cases h0 : n = 0
  · subst h0; simpa [natReprL] using hk
  · simp only [natReprL, if_neg h0, List.length_map, List.length_reverse]
    exact natDigits_length_le n k h0 h

theorem isDigitChar_not_sign (c : Char) (h : isDigitChar c) :
    ¬(c = '+' ∨ c = '-') := by
  rintro (rfl | rfl)
  · exact absurd h (by decide)
  · exact absurd h (by decide)

theorem zfillL_length (w : Nat) (l : List Char) :
    (zfillL w l).length = max w l.length := by
  cases l with
  | nil => simp [zfillL]
  | cons c rest =>
      by_cases hc : c = '+' ∨ c = '-'
      · simp only [zfillL, if_pos hc, List.length_cons, List.length_append,
          List.length_replicate]
        omega
      · simp only [zfillL, if_neg hc, List.length_cons, List.length_append,
          List.length_replicate]
        omega

theorem zfillL_digitsOnly (w : Nat) (l : List Char) (h : digitsOnly l) :
    digitsOnly (zfillL w l) := by
  cases l with
  | nil =>
      intro c hc
      simp only [zfillL, List.mem_replicate] at hc
      rw [hc.2]
      exact ⟨by decide, by decide⟩
  | cons c rest =>
      have hc0 := isDigitChar_not_sign c (h c (by simp))
      simp only [zfillL, if_neg hc0]
      intro x hx
      rcases List.mem_append.mp hx with hx | hx
      · simp only [List.mem_replicate] at hx
        rw [hx.2]
        exact ⟨by decide, by decide⟩
      · exact h x hx

theorem pyIntL_zfillL (w : Nat) (l : List Char) (h : digitsOnly l) :
    pyIntL (zfillL w l) = pyIntL l := by
  cases l with
  | nil =>
      have : zfillL w [] = List.replicate w '0' ++ ([] : List Char) := by
        simp [zfillL]
      rw [this, pyIntL_append_zeros]
  | cons c rest =>
      have hc0 := isDigitChar_not_sign c (h c (by simp))
      simp only [zfillL, if_neg hc0]
      rw [pyIntL_append_zeros]

/-- The key normalization used before the mobility merges
(`merge_data.py`, `run_all`): render the value and zero-pad to width 5. -/
theorem zfill_natRepr_eq_of_pyIntL_eq (s : List Char) (hd : digitsOnly s)
    (hl : s.length = 5) : zfillL 5 (natReprL (pyIntL s)) = s := by
  have hn : pyIntL s < 10 ^ 5 := by rw [← hl]; exact pyIntL_lt s hd
  have hr : digitsOnly (natReprL (pyIntL s)) := natReprL_digitsOnly _
  have hrl : (natReprL (pyIntL s)).length ≤ 5 :=
    natReprL_length_le _ 5 hn (by norm_num)
  have hz : digitsOnly (zfillL 5 (natReprL (pyIntL s))) := zfillL_digitsOnly _ _ hr
  have hzl : (zfillL 5 (natReprL (pyIntL s))).length = 5 := by
    rw [zfillL_length]; omega
  have hzv : pyIntL (zfillL 5 (natReprL (pyIntL s))) = pyIntL s := by
    rw [pyIntL_zfillL _ _ hr, pyIntL_natReprL]
  exact pyIntL_injective _ _ (by rw [hzl, hl]) hz hd hzv

/-- C8: zero-padding a 4-digit FIPS code to width 5 yields a 5-character
string, and re-parsing an already 5-padded code as an integer and zero-padding
it again restores the original string — the zfill-based canonical key form
applied in `MobilityDataProcessor.run_all` before the mobility merges is
idempotent. -/
theorem c8_zfill_roundtrip (s4 s5 : String)
    (h4 : digitsOnly s4.data ∧ s4.length = 4)
    (h5 : digitsOnly s5.data ∧ s5.length = 5) :
    (zfill 5 s4).length = 5 ∧ zfill 5 (natRepr (pyInt s5)) = s5 := by
  constructor
  · show (zfillL 5 s4.data).length = 5
    rw [zfillL_length]
    have : s4.data.length = 4 := h4.2
    omega
  · show (⟨zfillL 5 (natReprL (pyIntL s5.data))⟩ : String) = s5
    obtain ⟨d⟩ := s5
    exact congrArg String.mk (zfill_natRepr_eq_of_pyIntL_eq d h5.1 h5.2)

/-- Witness for C8 at the concrete county FIPS code `01701`. -/
theorem c8_zfill_roundtrip_witness :
    (zfill 5 "1701").length = 5 ∧ zfill 5 (natRepr (pyInt "01701")) = "01701" :=
  c8_zfill_roundtrip "1701" "01701" ⟨by decide, by decide⟩ ⟨by decide, by decide⟩

/-! ### Lemmas about fallible column maps -/

theorem except_bind_pure {γ : Type} (x : Except PipeError γ) :
    (do let y ← x; pure y : Except PipeError γ) = x := by
  cases x <;> rfl

theorem mapE_ok_mem {α β : Type} {f : α → Except PipeError β} {l : List α}
    {out : List β} (h : mapE f l = .ok out) :
    ∀ y ∈ out, ∃ x ∈ l, f x = .ok y := by
  induction l generalizing out with
  | nil =>
      simp only [mapE] at h
      cases h
      intro y hy
      simp at hy
  | cons x xs ih =>
      simp only [mapE] at h
      cases hfx : f x with
      | error e => rw [hfx] at h; simp [Bind.bind, Except.bind] at h
      | ok y0 =>
          rw [hfx] at h
          cases hxs : mapE f xs with
          | error e =>
              rw [hxs] at h; simp [Bind.bind, Except.bind] at h
          | ok ys =>
              rw [hxs] at h
              simp only [Bind.bind, Except.bind, pure, Except.pure, Except.ok.injEq] at h
              subst h
              intro y hy
              rcases List.mem_cons.mp hy with rfl | hy
              · exact ⟨x, List.mem_cons_self x xs, hfx⟩
              · obtain ⟨x', hx', hfx'⟩ := ih hxs y hy
                exact ⟨x', List.mem_cons_of_mem x hx', hfx'⟩

theorem mapE_ok_length {α β : Type} {f : α → Except PipeError β} {l : List α}
    {out : List β} (h : mapE f l = .ok out) : out.length = l.length := by
  induction l generalizing out with
  | nil => simp only [mapE] at h; cases h; rfl
  | cons x xs ih =>
      simp only [mapE] at h
      cases hfx : f x with
      | error e => rw [hfx] at h; simp [Bind.bind, Except.bind] at h
      | ok y0 =>
          rw [hfx] at h
          cases hxs : mapE f xs with
          | error e => rw [hxs] at h; simp [Bind.bind, Except.bind] at h
          | ok ys =>
              rw [hxs] at h
              simp only [Bind.bind, Except.bind, pure, Except.pure, Except.ok.injEq] at h
              subst h
              simp [ih hxs]

theorem mapE_ok_get {α β : Type} {f : α → Except PipeError β} {l : List α}
    {out : List β} (h : mapE f l = .ok out) :
    ∀ i (h1 : i < l.length) (h2 : i < out.length),
      f (l.get ⟨i, h1⟩) = .ok (out.get ⟨i, h2⟩) := by
  induction l generalizing out with
  | nil => intro i h1; simp at h1
  | cons x xs ih =>
      simp only [mapE] at h
      cases hfx : f x with
      | error e => rw [hfx] at h; simp [Bind.bind, Except.bind] at h
      | ok y0 =>
          rw [hfx] at h
          cases hxs : mapE f xs with
          | error e => rw [hxs] at h; simp [Bind.bind, Except.bind] at h
          | ok ys =>
              rw [hxs] at h
              simp only [Bind.bind, Except.bind, pure, Except.pure, Except.ok.injEq] at h
              subst h
              intro i h1 h2
              cases i with
              | zero => simpa using hfx
              | succ j =>
                  simp only [List.get_cons_succ]
                  exact ih hxs j (by simpa using h1) (by simpa using h2)

theorem mapE_error_mem {α β : Type} {f : α → Except PipeError β} {l : List α}
    {e : PipeError} (h : mapE f l = .error e) :
    ∃ x ∈ l, f x = .error e := by
  induction l with
  | nil => simp [mapE] at h
  | cons x xs ih =>
      simp only [mapE] at h
      cases hfx : f x with
      | error e' =>
          rw [hfx] at h
          simp only [Bind.bind, Except.bind, Except.error.injEq] at h
          subst h
          exact ⟨x, List.mem_cons_self x xs, hfx⟩
      | ok y0 =>
          rw [hfx] at h
          cases hxs : mapE f xs with
          | error e' =>
              rw [hxs] at h
              simp only [Bind.bind, Except.bind, Except.error.injEq] at h
              subst h
              obtain ⟨x', hx', hfx'⟩ := ih hxs
              exact ⟨x', List.mem_cons_of_mem x hx', hfx'⟩
          | ok ys =>
              rw [hxs] at h
              simp [Bind.bind, Except.bind, pure, Except.pure] at h

theorem mapE_error_of_mem {α β : Type} {f : α → Except PipeError β} {l : List α}
    {x : α} {e : PipeError} (hx : x ∈ l) (hfx : f x = .error e) :
    ∃ e', mapE f l = .error e' := by
  induction l with
  | nil => simp at hx
  | cons z zs ih =>
      rcases List.mem_cons.mp hx with rfl | hx
      · refine ⟨e, ?_⟩
        simp only [mapE, hfx]
        rfl
      · simp only [mapE]
        cases hfz : f z with
        | error e' => exact ⟨e', rfl⟩
        | ok y0 =>
            obtain ⟨e', he'⟩ := ih hx
            rw [he']
            exact ⟨e', rfl⟩

theorem toIntCell_error_shape {v : CellVal} {e : PipeError}
    (h : toIntCell v = .error e) : ∃ msg, e = .TypeConversionError msg := by
  cases v with
  | cInt n => simp [toIntCell] at h
  | cStr s =>
      simp only [toIntCell] at h
      split at h
      · simp at h
      · injection h with h2
        exact ⟨_, h2.symm⟩
  | cNull =>
      simp only [toIntCell] at h
      injection h with h2
      exact ⟨_, h2.symm⟩

/-- The per-row conversion step of `link_tract_to_cz`. -/
def czCastRow (r : DemoCzRow) : Except PipeError CzLinkRow := do
  let n ← toIntCell r.czId1990
  pure (⟨r.selectState, n, r.FIPS, r.tractFIPS⟩ : CzLinkRow)

theorem link_tract_to_cz_eq (tracts_fips : List DemoRow) (cz_id : List CzRow) :
    link_tract_to_cz tracts_fips cz_id
      = mapE czCastRow ((mergeDemoCz tracts_fips cz_id).filter stateAllowed) := by
  unfold link_tract_to_cz czCastRow
  exact except_bind_pure _

theorem czCastRow_ok {r : DemoCzRow} {y : CzLinkRow} (h : czCastRow r = .ok y) :
    toIntCell r.czId1990 = .ok y.CZ_ID ∧ y.State = r.selectState ∧
      y.County_FIPS = r.FIPS ∧ y.Tract_FIPS = r.tractFIPS := by
  unfold czCastRow at h
  cases hv : toIntCell r.czId1990 with
  | error e => rw [hv] at h; simp [Bind.bind, Except.bind] at h
  | ok n =>
      rw [hv] at h
      simp only [Bind.bind, Except.bind, pure, Except.pure, Except.ok.injEq] at h
      subst h
      exact ⟨rfl, rfl, rfl, rfl⟩

theorem czCastRow_error {r : DemoCzRow} {e : PipeError}
    (h : czCastRow r = .error e) : toIntCell r.czId1990 = .error e := by
  unfold czCastRow at h
  cases hv : toIntCell r.czId1990 with
  | error e' =>
      rw [hv] at h
      simp only [Bind.bind, Except.bind, Except.error.injEq] at h
      rw [h]
  | ok n =>
      rw [hv] at h
      simp [Bind.bind, Except.bind, pure, Except.pure] at h

/-! ### C5 — state allow-list filter correctness -/

/-- C5: every row of the Hierarchy Linker output carries a state from the
configured allow-list `{IL, IN, WI, MI}`; no other state appears. -/
theorem c5_filter_correct (tracts_fips : List DemoRow) (cz_id : List CzRow)
    (out : List CzLinkRow) (r : CzLinkRow)
    (hok : link_tract_to_cz tracts_fips cz_id = .ok out) (hr : r ∈ out) :
    ∃ s, r.State = some s ∧ s ∈ statesList := by
  rw [link_tract_to_cz_eq] at hok
  obtain ⟨x, hx, hfx⟩ := mapE_ok_mem hok r hr
  obtain ⟨-, hstate, -, -⟩ := czCastRow_ok hfx
  have hall : stateAllowed x = true := (List.mem_filter.mp hx).2
  unfold stateAllowed at hall
  cases hss : x.selectState with
  | none => rw [hss] at hall; simp at hall
  | some s =>
      rw [hss] at hall
      refine ⟨s, by rw [hstate, hss], ?_⟩
      simpa using hall

/-- Witness for C5: the reference scenario, county FIPS 17001 in `IL` with
CZ 123. -/
theorem c5_filter_correct_witness :
    ∃ s, (⟨some "IL", 123, .cInt 17001, .cInt 17001000100⟩ : CzLinkRow).State
        = some s ∧ s ∈ statesList :=
  c5_filter_correct
    [⟨.cInt 17001, some "IL", .cInt 17001000100⟩]
    [⟨.cInt 123, .cInt 17001⟩]
    [⟨some "IL", 123, .cInt 17001, .cInt 17001000100⟩]
    ⟨some "IL", 123, .cInt 17001, .cInt 17001000100⟩
    (by rfl) (by decide)

/-! ### C6 — CZ id cast surfaces `TypeConversionError` -/

/-- C6: the Hierarchy Linker casts the CZ id of every filtered row to an
integer (positionally, the `i`-th output row's `CZ_ID` is the successful cast
of the `i`-th filtered row's CZ id), and it fails with a
`TypeConversionError` exactly when some filtered row has a missing or
non-numeric CZ id — such as a null left over from the left join. -/
theorem c6_cz_cast (tracts_fips : List DemoRow) (cz_id : List CzRow) :
    ((∃ msg, link_tract_to_cz tracts_fips cz_id
        = .error (.TypeConversionError msg)) ↔
      (∃ r ∈ (mergeDemoCz tracts_fips cz_id).filter stateAllowed,
        ∃ e, toIntCell r.czId1990 = .error e)) ∧
    (∀ out, link_tract_to_cz tracts_fips cz_id = .ok out →
      ∀ i (h1 : i < ((mergeDemoCz tracts_fips cz_id).filter stateAllowed).length)
        (h2 : i < out.length),
        toIntCell ((((mergeDemoCz tracts_fips cz_id).filter stateAllowed).get
            ⟨i, h1⟩).czId1990)
          = .ok ((out.get ⟨i, h2⟩).CZ_ID)) := by
  constructor
  · constructor
    · rintro ⟨msg, herr⟩
      rw [link_tract_to_cz_eq] at herr
      obtain ⟨x, hx, hfx⟩ := mapE_error_mem herr
      exact ⟨x, hx, _, czCastRow_error hfx⟩
    · rintro ⟨r, hr, e, he⟩
      have hrow : czCastRow r = .error e := by
        unfold czCastRow
        rw [he]
        rfl
      obtain ⟨e', he'⟩ := mapE_error_of_mem hr hrow
      have : ∃ x ∈ (mergeDemoCz tracts_fips cz_id).filter stateAllowed,
          czCastRow x = .error e' := mapE_error_mem he'
      obtain ⟨x, -, hfx⟩ := this
      obtain ⟨msg, rfl⟩ := toIntCell_error_shape (czCastRow_error hfx)
      exact ⟨msg, by rw [link_tract_to_cz_eq]; exact he'⟩
  · intro out hok i h1 h2
    rw [link_tract_to_cz_eq] at hok
    have := mapE_ok_get hok i h1 h2
    exact (czCastRow_ok this).1

/-- Witness for C6: an allow-listed row whose CZ id is left null by the join
(empty CZ table) makes the linker fail with a `TypeConversionError`. -/
theorem c6_cz_cast_witness :
    ∃ msg, link_tract_to_cz [⟨.cInt 17001, some "IL", .cInt 17001000100⟩] []
      = .error (.TypeConversionError msg) :=
  (c6_cz_cast [⟨.cInt 17001, some "IL", .cInt 17001000100⟩] []).1.mpr
    ⟨⟨.cInt 17001, some "IL", .cInt 17001000100, .cNull⟩, by decide,
      .TypeConversionError "cannot convert NA to integer", by rfl⟩

/-! ### C10 — the allow-list filter precedes the integer cast -/

/-- C10: a conversion failure in the Hierarchy Linker is reachable only
through a row whose state is allow-listed: whenever `link_tract_to_cz`
fails, the failure is a `TypeConversionError` and some merged row that
passed the state filter has a missing/non-numeric CZ id.  Rows with bad CZ
ids but non-allow-listed states are filtered out before the cast and can
never cause the failure. -/
theorem c10_filter_before_cast (tracts_fips : List DemoRow)
    (cz_id : List CzRow) (e : PipeError)
    (herr : link_tract_to_cz tracts_fips cz_id = .error e) :
    (∃ msg, e = .TypeConversionError msg) ∧
      ∃ r ∈ mergeDemoCz tracts_fips cz_id,
        stateAllowed r = true ∧ toIntCell r.czId1990 = .error e := by
  rw [link_tract_to_cz_eq] at herr
  obtain ⟨x, hx, hfx⟩ := mapE_error_mem herr
  have hv := czCastRow_error hfx
  obtain ⟨hxm, hxs⟩ := List.mem_filter.mp hx
  exact ⟨toIntCell_error_shape hv, x, hxm, hxs, hv⟩

/-- Witness for C10: a non-allow-listed row with a malformed CZ id does not
fail the run; the failure exhibited comes from an `IL` row whose CZ id is a
non-numeric string. -/
theorem c10_filter_before_cast_witness :
    (∃ msg, (PipeError.TypeConversionError "invalid literal for int" : PipeError)
        = .TypeConversionError msg) ∧
      ∃ r ∈ mergeDemoCz
          [⟨.cInt 55001, some "OH", .cInt 1⟩, ⟨.cInt 17001, some "IL", .cInt 2⟩]
          [⟨.cStr "abc", .cInt 17001⟩],
        stateAllowed r = true ∧ toIntCell r.czId1990
          = .error (.TypeConversionError "invalid literal for int") :=
  c10_filter_before_cast
    [⟨.cInt 55001, some "OH", .cInt 1⟩, ⟨.cInt 17001, some "IL", .cInt 2⟩]
    [⟨.cStr "abc", .cInt 17001⟩]
    (.TypeConversionError "invalid literal for int")
    (by rfl)

/-! ### Lemmas about the nearest join -/

theorem sjoinRowsFor_singleton {P : Type} (rep : P → Pt)
    (ms : List (TractRowMut P)) (i : Nat) (g : Pt)
    (h : (nearestMatches rep ms g).length ≤ 1) :
    ∃ r : JoinedRow P, sjoinRowsFor rep ms (i, g) = [r] ∧ r.leftIdx = i := by
  unfold sjoinRowsFor
  cases hnm : nearestMatches rep ms g with
  | nil => exact ⟨_, rfl, rfl⟩
  | cons jm rest =>
      rw [hnm] at h
      simp only [List.length_cons] at h
      have hrest : rest = [] := List.eq_nil_of_length_eq_zero (by omega)
      subst hrest
      exact ⟨_, rfl, rfl⟩

theorem mem_nearestMatches {P : Type} {rep : P → Pt}
    {ms : List (TractRowMut P)} {g : Pt} {jm : Nat × TractRowMut P}
    (h : jm ∈ nearestMatches rep ms g) :
    jm.2 ∈ ms ∧ sqDist g (activePt rep jm.2)
        = ((ms.map fun m => sqDist g (activePt rep m)).min?.getD 0) ∧
      ∀ m' ∈ ms, sqDist g (activePt rep jm.2) ≤ sqDist g (activePt rep m') := by
  unfold nearestMatches at h
  split at h
  · simp at h
  · rename_i d hmin
    obtain ⟨henum, hd⟩ := List.mem_filter.mp h
    have hd' : sqDist g (activePt rep jm.2) = d := of_decide_eq_true hd
    refine ⟨?_, ?_, ?_⟩
    · have hm2 := List.mem_map_of_mem Prod.snd henum
      rwa [List.enum_map_snd] at hm2
    · rw [hd', hmin]; rfl
    · intro m' hm'
      rw [hd']
      have hall := (List.le_min?_iff (fun _ _ _ => le_min_iff) hmin).mp
        (le_refl d)
      exact hall _ (List.mem_map_of_mem _ hm')

theorem nearestMatches_ne_nil {P : Type} (rep : P → Pt)
    {ms : List (TractRowMut P)} (hms : ms ≠ []) (g : Pt) :
    nearestMatches rep ms g ≠ [] := by
  unfold nearestMatches
  cases hmin : (ms.map fun m => sqDist g (activePt rep m)).min? with
  | none =>
      rw [List.min?_eq_none_iff, List.map_eq_nil] at hmin
      exact absurd hmin hms
  | some d =>
      have hd : d ∈ ms.map fun m => sqDist g (activePt rep m) :=
        List.min?_mem (fun a b => min_choice a b) hmin
      obtain ⟨m, hm, hdm⟩ := List.mem_map.mp hd
      obtain ⟨n, hn⟩ := List.mem_iff_get?.mp hm
      intro hcontra
      have hc2 : ms.enum.filter
          (fun jm => decide (sqDist g (activePt rep jm.2) = d)) = [] := hcontra
      have hmem : (n, m) ∈ ms.enum := List.mk_mem_enum_iff_get?.mpr hn
      have hmemf : (n, m) ∈ ms.enum.filter
          fun jm => decide (sqDist g (activePt rep jm.2) = d) :=
        List.mem_filter.mpr ⟨hmem, by simp [hdm]⟩
      rw [hc2] at hmemf
      simp at hmemf

theorem sjoinRowsFor_mem {P : Type} {rep : P → Pt}
    {ms : List (TractRowMut P)} (hms : ms ≠ []) {ig : Nat × Pt}
    {r : JoinedRow P} (hr : r ∈ sjoinRowsFor rep ms ig) :
    r.leftIdx = ig.1 ∧ r.geometry = ig.2 ∧
      ∃ m ∈ ms, r.Tract_FIPS = some m.GEOID ∧
        r.distance = some (sqDist ig.2 (activePt rep m)) ∧
        ∀ m' ∈ ms,
          sqDist ig.2 (activePt rep m) ≤ sqDist ig.2 (activePt rep m') := by
  unfold sjoinRowsFor at hr
  revert hr
  cases hnm : nearestMatches rep ms ig.2 with
  | nil => exact absurd hnm (nearestMatches_ne_nil rep hms ig.2)
  | cons jm rest =>
      intro hr
      obtain ⟨jm', hjm', rfl⟩ := List.mem_map.mp hr
      rw [← hnm] at hjm'
      obtain ⟨hmem, -, hmin⟩ := mem_nearestMatches hjm'
      exact ⟨rfl, rfl, jm'.2, hmem, rfl, rfl, hmin⟩

theorem sjoin_uid_map {P : Type} (rep : P → Pt) (proj : Pt → Pt)
    (ms : List (TractRowMut P)) (D : List (String × Pt)) :
    ∀ (ss : List SchoolRow) (k : Nat),
      (∀ s ∈ ss, (nearestMatches rep ms (proj s.geometry)).length ≤ 1) →
      (∀ j, D.get? (k + j)
        = (ss.get? j).map fun s => (s.universalId, s.geometry)) →
      (((ss.map fun s => proj s.geometry).enumFrom k).flatMap
          (sjoinRowsFor rep ms)).map
        (fun r => (D.get? r.leftIdx).map Prod.fst)
      = ss.map fun s => some s.universalId := by
  intro ss
  induction ss with
  | nil => intro k _ _; rfl
  | cons s ss ih =>
      intro k hyp hD
      obtain ⟨r, hrow, hidx⟩ := sjoinRowsFor_singleton rep ms k
        (proj s.geometry) (hyp s (by simp))
      have hDk : (D.get? k).map Prod.fst = some s.universalId := by
        have := hD 0
        simp only [Nat.add_zero, List.get?_cons_zero] at this
        rw [this]
        rfl
      simp only [List.map_cons, List.enumFrom_cons, List.flatMap_cons,
        List.map_append, hrow]
      rw [ih (k + 1) (fun x hx => hyp x (by simp [hx])) (fun j => by
        have := hD (j + 1)
        rw [show k + (j + 1) = k + 1 + j by omega] at this
        simpa using this)]
      simp only [List.map_cons, List.map_nil, List.singleton_append, hidx]
      rw [hDk]

theorem sjoin_leftIdx_map {P : Type} (rep : P → Pt)
    (ms : List (TractRowMut P)) :
    ∀ (gs : List Pt) (k : Nat),
      (∀ g ∈ gs, (nearestMatches rep ms g).length ≤ 1) →
      ((gs.enumFrom k).flatMap (sjoinRowsFor rep ms)).map (fun r => r.leftIdx)
        = List.range' k gs.length := by
  intro gs
  induction gs with
  | nil => intro k _; rfl
  | cons g gs ih =>
      intro k hyp
      obtain ⟨r, hrow, hidx⟩ := sjoinRowsFor_singleton rep ms k g
        (hyp g (by simp))
      simp only [List.enumFrom_cons, List.flatMap_cons, List.map_append, hrow,
        List.length_cons, List.range'_succ]
      rw [ih (k + 1) (fun x hx => hyp x (by simp [hx]))]
      simp [hidx]

/-! ### C1 — identifier preservation -/

/-- C1 fails as frozen: with two tracts whose representative points are
equidistant from the single school, `sjoin_nearest` keeps both matches, so
the output has two rows for the one input point instead of exactly one. -/
theorem c1_counterexample :
    ¬ ((link_school_to_tract (fun _ : Unit => ((0 : Int), (0 : Int))) id id
          [⟨(0, 0), "s1"⟩]
          [⟨"t1", .pt (1, 0)⟩, ⟨"t2", .pt (-1, 0)⟩]).1.map
        (fun r => r.universalId)
      = [(⟨(0, 0), "s1"⟩ : SchoolRow)].map fun s => some s.universalId) := by
  decide

/-- C1 (amended): provided each point has a unique nearest representative
point (no distance ties), the Nearest-Region Linker output has exactly one
row per input point, in input order, and each row's re-attached
`universal-id` is the corresponding input point's identifier. -/
theorem c1_identifier_preservation {P : Type} (rep : P → Pt) (proj : Pt → Pt)
    (projP : P → P) (school_identifier : List SchoolRow)
    (tracts_identifier : List (TractRow P))
    (hyp : ∀ s ∈ school_identifier,
      (nearestMatches rep (tractsForJoin rep proj projP tracts_identifier)
        (proj s.geometry)).length ≤ 1) :
    (link_school_to_tract rep proj projP school_identifier
        tracts_identifier).1.map (fun r => r.universalId)
      = school_identifier.map fun s => some s.universalId := by
  unfold link_school_to_tract sjoinNearest
  simp only [List.map_map]
  have hD : ∀ j,
      (school_identifier.map fun s => (s.universalId, s.geometry)).get? (0 + j)
        = (school_identifier.get? j).map fun s => (s.universalId, s.geometry) := by
    intro j
    rw [Nat.zero_add, List.get?_map]
  exact sjoin_uid_map rep proj _ _ school_identifier 0 hyp hD

/-- Witness for C1: two schools, two tracts, unique nearest neighbours. -/
theorem c1_identifier_preservation_witness :
    (link_school_to_tract (fun _ : Unit => ((0 : Int), (0 : Int))) id id
        [⟨(0, 0), "s1"⟩, ⟨(5, 5), "s2"⟩]
        [⟨"t1", .pt (1, 0)⟩, ⟨"t2", .pt (6, 5)⟩]).1.map
      (fun r => r.universalId)
    = [(⟨(0, 0), "s1"⟩ : SchoolRow), ⟨(5, 5), "s2"⟩].map
        fun s => some s.universalId :=
  c1_identifier_preservation (fun _ : Unit => ((0 : Int), (0 : Int))) id id
    [⟨(0, 0), "s1"⟩, ⟨(5, 5), "s2"⟩]
    [⟨"t1", .pt (1, 0)⟩, ⟨"t2", .pt (6, 5)⟩]
    (by decide)

/-! ### C2 — single nearest region and recorded distance -/

/-- C2 fails as frozen: at an exact distance tie the linker assigns two
region ids to the same point, not exactly one. -/
theorem c2_counterexample :
    ¬ (((link_school_to_tract (fun _ : Unit => ((0 : Int), (0 : Int))) id id
          [⟨(0, 0), "s1"⟩]
          [⟨"t1", .pt (0, 1)⟩, ⟨"t2", .pt (0, -1)⟩]).1.filter
        (fun r => r.leftIdx == 0)).length = 1) := by
  decide

/-- C2 (amended): provided the tract table is nonempty and each point has a
unique nearest representative point, the linker emits exactly one row per
point (left indices are `0, 1, …` in order); every output row carries the
point's projected coordinate, is assigned a region whose (projected)
representative point minimises the planar distance to it, and records
exactly that minimal (squared) distance. -/
theorem c2_single_nearest {P : Type} (rep : P → Pt) (proj : Pt → Pt)
    (projP : P → P) (school_identifier : List SchoolRow)
    (tracts_identifier : List (TractRow P))
    (hne : tracts_identifier ≠ [])
    (hyp : ∀ s ∈ school_identifier,
      (nearestMatches rep (tractsForJoin rep proj projP tracts_identifier)
        (proj s.geometry)).length ≤ 1) :
    ((link_school_to_tract rep proj projP school_identifier
        tracts_identifier).1.map (fun r => r.leftIdx)
      = List.range' 0 school_identifier.length) ∧
    ∀ r ∈ (link_school_to_tract rep proj projP school_identifier
        tracts_identifier).1,
      (∃ hi : r.leftIdx < school_identifier.length,
        r.geometry
          = proj (school_identifier.get ⟨r.leftIdx, hi⟩).geometry) ∧
      ∃ m ∈ tractsForJoin rep proj projP tracts_identifier,
        r.Tract_FIPS = some m.GEOID ∧
        r.distance = some (sqDist r.geometry (activePt rep m)) ∧
        ∀ m' ∈ tractsForJoin rep proj projP tracts_identifier,
          sqDist r.geometry (activePt rep m)
            ≤ sqDist r.geometry (activePt rep m') := by
  have hmsne : tractsForJoin rep proj projP tracts_identifier ≠ [] := by
    unfold tractsForJoin mutateTracts
    simp only [ne_eq, List.map_eq_nil]
    exact hne
  constructor
  · unfold link_school_to_tract sjoinNearest
    simp only [List.map_map]
    have := sjoin_leftIdx_map rep
      (tractsForJoin rep proj projP tracts_identifier)
      (school_identifier.map fun s => proj s.geometry) 0
      (fun g hg => by
        obtain ⟨s, hs, rfl⟩ := List.mem_map.mp hg
        exact hyp s hs)
    simp only [List.length_map] at this
    exact this
  · intro r hr
    simp only [link_school_to_tract] at hr
    obtain ⟨r0, hr0, rfl⟩ := List.mem_map.mp hr
    unfold sjoinNearest at hr0
    obtain ⟨⟨i, g⟩, hig, hrow⟩ := List.mem_flatMap.mp hr0
    have hg : (school_identifier.map fun s => proj s.geometry).get? i = some g :=
      List.mk_mem_enum_iff_get?.mp hig
    rw [List.get?_map] at hg
    cases hs : school_identifier.get? i with
    | none => rw [hs] at hg; simp at hg
    | some s =>
        rw [hs] at hg
        replace hg : proj s.geometry = g := by simpa using hg
        obtain ⟨hidx, hgeom, m, hm, hfips, hdist, hmin⟩ :=
          sjoinRowsFor_mem hmsne hrow
        obtain ⟨hi, hgi⟩ := List.get?_eq_some.mp hs
        have hgel : school_identifier[i] = s := by
          have h2 : school_identifier[i]? = some s := by
            rw [← List.get?_eq_getElem?]
            exact hs
          rwa [List.getElem?_eq_getElem hi, Option.some_inj] at h2
        have hidx' : r0.leftIdx = i := hidx
        have hgeom' : r0.geometry = g := hgeom
        refine ⟨⟨by simpa [hidx'] using hi, ?_⟩, m, hm, hfips, ?_, ?_⟩
        · simpa [hidx', hgeom', hgel] using hg.symm
        · simpa [hgeom'] using hdist
        · intro m' hm'
          simpa [hgeom'] using hmin m' hm'

/-- Witness for C2: one school, two tracts at distinct distances. -/
theorem c2_single_nearest_witness :
    ((link_school_to_tract (fun _ : Unit => ((0 : Int), (0 : Int))) id id
        [⟨(0, 0), "a"⟩]
        [⟨"t1", .pt (3, 4)⟩, ⟨"t2", .pt (10, 0)⟩]).1.map (fun r => r.leftIdx)
      = List.range' 0 ([(⟨(0, 0), "a"⟩ : SchoolRow)]).length) ∧
    ∀ r ∈ (link_school_to_tract (fun _ : Unit => ((0 : Int), (0 : Int))) id id
        [⟨(0, 0), "a"⟩]
        [⟨"t1", .pt (3, 4)⟩, ⟨"t2", .pt (10, 0)⟩]).1,
      (∃ hi : r.leftIdx < ([(⟨(0, 0), "a"⟩ : SchoolRow)]).length,
        r.geometry = id (([(⟨(0, 0), "a"⟩ : SchoolRow)]).get
          ⟨r.leftIdx, hi⟩).geometry) ∧
      ∃ m ∈ tractsForJoin (fun _ : Unit => ((0 : Int), (0 : Int))) id id
          [⟨"t1", .pt (3, 4)⟩, ⟨"t2", .pt (10, 0)⟩],
        r.Tract_FIPS = some m.GEOID ∧
        r.distance = some (sqDist r.geometry
          (activePt (fun _ : Unit => ((0 : Int), (0 : Int))) m)) ∧
        ∀ m' ∈ tractsForJoin (fun _ : Unit => ((0 : Int), (0 : Int))) id id
            [⟨"t1", .pt (3, 4)⟩, ⟨"t2", .pt (10, 0)⟩],
          sqDist r.geometry (activePt (fun _ : Unit => ((0 : Int), (0 : Int))) m)
            ≤ sqDist r.geometry
                (activePt (fun _ : Unit => ((0 : Int), (0 : Int))) m') :=
  c2_single_nearest (fun _ : Unit => ((0 : Int), (0 : Int))) id id
    [⟨(0, 0), "a"⟩] [⟨"t1", .pt (3, 4)⟩, ⟨"t2", .pt (10, 0)⟩]
    (by decide) (by decide)

/-! ### C9 — the tract frame is mutated, not left unchanged -/

/-- C9 fails as frozen: `link_school_to_tract` overwrites the caller's
tract frame's `geometry` column with representative points; even with no
schools at all, the polygon cell is replaced by a point cell. -/
theorem c9_counterexample :
    ¬ ((link_school_to_tract (fun _ : Unit => ((0 : Int), (0 : Int))) id id
          [] [⟨"t1", .poly ()⟩]).2.map (fun t => t.geometry)
        = [(⟨"t1", .poly ()⟩ : TractRow Unit)].map fun t => t.geometry) := by
  decide

/-- C9 (amended): `link_school_to_tract` mutates its tract argument — it
appends `inside_point` and `geometry_tract` columns and overwrites the
active `geometry` column with the representative points (in the original,
unprojected coordinates; the reprojection is bound to a local name and is
not visible to the caller).  The region identifiers are untouched and the
original polygons remain available in the `geometry_tract` column. -/
theorem c9_mutation_frame {P : Type} (rep : P → Pt) (proj : Pt → Pt)
    (projP : P → P) (school_identifier : List SchoolRow)
    (tracts_identifier : List (TractRow P)) :
    ((link_school_to_tract rep proj projP school_identifier
        tracts_identifier).2.map (fun t => t.GEOID)
      = tracts_identifier.map fun t => t.GEOID) ∧
    ((link_school_to_tract rep proj projP school_identifier
        tracts_identifier).2.map (fun t => t.geometry_tract)
      = tracts_identifier.map fun t => t.geometry) ∧
    ((link_school_to_tract rep proj projP school_identifier
        tracts_identifier).2.map (fun t => t.geometry)
      = tracts_identifier.map fun t => GeomVal.pt (repPoint rep t.geometry)) ∧
    ((link_school_to_tract rep proj projP school_identifier
        tracts_identifier).2.map (fun t => t.inside_point)
      = tracts_identifier.map fun t => repPoint rep t.geometry) := by
  refine ⟨?_, ?_, ?_, ?_⟩ <;>
    simp [link_school_to_tract, mutateTracts, List.map_map, Function.comp]

/-! ### Lemmas about the driver merge -/

theorem driverRowsFor_length_pos {P : Type} (tracts_cz : List CzLinkRow)
    (l : JoinedRow P) : 0 < (driverRowsFor tracts_cz l).length := by
  unfold driverRowsFor
  cases hf : tracts_cz.filter
      (fun c => pyStrCell c.Tract_FIPS == pyStrOptStr l.Tract_FIPS) with
  | nil => simp
  | cons c r => simp

theorem driverRowsFor_length_eq_one {P : Type} {tracts_cz : List CzLinkRow}
    {l : JoinedRow P}
    (h : (tracts_cz.filter
      (fun c => pyStrCell c.Tract_FIPS == pyStrOptStr l.Tract_FIPS)).length ≤ 1) :
    (driverRowsFor tracts_cz l).length = 1 := by
  unfold driverRowsFor
  revert h
  cases hf : tracts_cz.filter
      (fun c => pyStrCell c.Tract_FIPS == pyStrOptStr l.Tract_FIPS) with
  | nil => intro h; simp
  | cons c r =>
      intro h
      simp only [List.length_cons] at h
      have : r = [] := List.eq_nil_of_length_eq_zero (by omega)
      subst this
      simp

theorem driverRowsFor_mem {P : Type} {tracts_cz : List CzLinkRow}
    {l : JoinedRow P} {r : MergedRow P} (hr : r ∈ driverRowsFor tracts_cz l) :
    r.Tract_FIPS = pyStrOptStr l.Tract_FIPS ∧
      ((tracts_cz.filter
          (fun c => pyStrCell c.Tract_FIPS == pyStrOptStr l.Tract_FIPS)) = [] →
        r.State = none ∧ r.CZ_ID = none ∧ r.County_FIPS = none) := by
  unfold driverRowsFor at hr
  revert hr
  cases hf : tracts_cz.filter
      (fun c => pyStrCell c.Tract_FIPS == pyStrOptStr l.Tract_FIPS) with
  | nil =>
      intro hr
      rw [List.mem_singleton] at hr
      subst hr
      exact ⟨rfl, fun _ => ⟨rfl, rfl, rfl⟩⟩
  | cons c rest =>
      intro hr
      obtain ⟨c', -, rfl⟩ := List.mem_map.mp hr
      refine ⟨rfl, fun hcontra => ?_⟩
      exact (List.cons_ne_nil _ _ hcontra).elim

theorem driverMerge_length_ge {P : Type} (school_tracts : List (JoinedRow P))
    (tracts_cz : List CzLinkRow) :
    school_tracts.length ≤ (driverMerge school_tracts tracts_cz).length := by
  induction school_tracts with
  | nil => simp [driverMerge]
  | cons l ls ih =>
      have hpos := driverRowsFor_length_pos tracts_cz l
      simp only [driverMerge, List.flatMap_cons, List.length_append,
        List.length_cons] at ih ⊢
      omega

theorem driverMerge_length_eq {P : Type} {school_tracts : List (JoinedRow P)}
    {tracts_cz : List CzLinkRow}
    (huniq : ∀ l ∈ school_tracts,
      (tracts_cz.filter
        (fun c => pyStrCell c.Tract_FIPS == pyStrOptStr l.Tract_FIPS)).length ≤ 1) :
    (driverMerge school_tracts tracts_cz).length = school_tracts.length := by
  induction school_tracts with
  | nil => simp [driverMerge]
  | cons l ls ih =>
      have h1 := driverRowsFor_length_eq_one (huniq l (by simp))
      have h2 := ih (fun x hx => huniq x (by simp [hx]))
      simp only [driverMerge, List.flatMap_cons, List.length_append,
        List.length_cons] at h2 ⊢
      omega

/-! ### C3 — join completeness of the final left merge -/

/-- C3 fails as frozen: when the Hierarchy Linker output contains two rows
with the same tract id (obtained here from a demographic table listing the
same tract twice), the left merge duplicates the matching school row, so the
merged table has more rows than the Point-to-Region Link table. -/
theorem c3_counterexample :
    ¬ ((driverMerge
        [(⟨0, (0, 0), some 0, some "11111", some (0, 0), some (.pt (0, 0)),
          some 0, some "s1"⟩ : JoinedRow Unit)]
        ((link_tract_to_cz
            [⟨.cStr "17001", some "IL", .cStr "11111"⟩,
             ⟨.cStr "17001", some "IL", .cStr "11111"⟩]
            [⟨.cInt 5, .cStr "17001"⟩]).toOption.getD [])).length
      = ([(⟨0, (0, 0), some 0, some "11111", some (0, 0), some (.pt (0, 0)),
          some 0, some "s1"⟩ : JoinedRow Unit)]).length) := by
  decide

/-- C3 (amended): the final left merge never drops rows — the merged table
has at least as many rows as the Point-to-Region Link table, with equality
whenever each stringified region id matches at most one hierarchy row; and
every merged row carries the stringified region id of a link row, with
`{State, CZ_ID, County_FIPS}` all null whenever that id has no match in the
hierarchy table. -/
theorem c3_join_completeness {P : Type} (school_tracts : List (JoinedRow P))
    (tracts_cz : List CzLinkRow) :
    (school_tracts.length ≤ (driverMerge school_tracts tracts_cz).length) ∧
    ((∀ l ∈ school_tracts,
        (tracts_cz.filter (fun c =>
          pyStrCell c.Tract_FIPS == pyStrOptStr l.Tract_FIPS)).length ≤ 1) →
      (driverMerge school_tracts tracts_cz).length = school_tracts.length) ∧
    (∀ r ∈ driverMerge school_tracts tracts_cz,
      (∃ l ∈ school_tracts, r.Tract_FIPS = pyStrOptStr l.Tract_FIPS) ∧
      ((tracts_cz.filter
          (fun c => pyStrCell c.Tract_FIPS == r.Tract_FIPS)) = [] →
        r.State = none ∧ r.CZ_ID = none ∧ r.County_FIPS = none)) := by
  refine ⟨driverMerge_length_ge school_tracts tracts_cz,
    fun huniq => driverMerge_length_eq huniq, ?_⟩
  intro r hr
  obtain ⟨l, hl, hrow⟩ := List.mem_flatMap.mp hr
  obtain ⟨hkey, hnull⟩ := driverRowsFor_mem hrow
  exact ⟨⟨l, hl, hkey⟩, fun hempty => hnull (by rwa [← hkey])⟩

/-- Witness for C3 at a link table and a hierarchy table with one matching
row each. -/
theorem c3_join_completeness_witness :
    (([(⟨0, (0, 0), some 0, some "17031", some (0, 0), some (.pt (0, 0)),
        some 0, some "s1"⟩ : JoinedRow Unit)]).length
      ≤ (driverMerge
          [(⟨0, (0, 0), some 0, some "17031", some (0, 0), some (.pt (0, 0)),
            some 0, some "s1"⟩ : JoinedRow Unit)]
          [⟨some "IL", 123, .cStr "17031", .cStr "17031"⟩]).length) ∧
    ((∀ l ∈ [(⟨0, (0, 0), some 0, some "17031", some (0, 0), some (.pt (0, 0)),
        some 0, some "s1"⟩ : JoinedRow Unit)],
        (([⟨some "IL", 123, .cStr "17031", .cStr "17031"⟩] :
            List CzLinkRow).filter (fun c =>
          pyStrCell c.Tract_FIPS == pyStrOptStr l.Tract_FIPS)).length ≤ 1) →
      (driverMerge
          [(⟨0, (0, 0), some 0, some "17031", some (0, 0), some (.pt (0, 0)),
            some 0, some "s1"⟩ : JoinedRow Unit)]
          [⟨some "IL", 123, .cStr "17031", .cStr "17031"⟩]).length
        = ([(⟨0, (0, 0), some 0, some "17031", some (0, 0), some (.pt (0, 0)),
            some 0, some "s1"⟩ : JoinedRow Unit)]).length) ∧
    (∀ r ∈ driverMerge
        [(⟨0, (0, 0), some 0, some "17031", some (0, 0), some (.pt (0, 0)),
          some 0, some "s1"⟩ : JoinedRow Unit)]
        [⟨some "IL", 123, .cStr "17031", .cStr "17031"⟩],
      (∃ l ∈ [(⟨0, (0, 0), some 0, some "17031", some (0, 0), some (.pt (0, 0)),
          some 0, some "s1"⟩ : JoinedRow Unit)],
        r.Tract_FIPS = pyStrOptStr l.Tract_FIPS) ∧
      ((([⟨some "IL", 123, .cStr "17031", .cStr "17031"⟩] :
          List CzLinkRow).filter
            (fun c => pyStrCell c.Tract_FIPS == r.Tract_FIPS)) = [] →
        r.State = none ∧ r.CZ_ID = none ∧ r.County_FIPS = none)) :=
  c3_join_completeness
    [(⟨0, (0, 0), some 0, some "17031", some (0, 0), some (.pt (0, 0)),
      some 0, some "s1"⟩ : JoinedRow Unit)]
    [⟨some "IL", 123, .cStr "17031", .cStr "17031"⟩]

/-! ### Lemmas about minimal decimal renderings -/

theorem natReprL_leadZeroFree (n : Nat) : leadZeroFree (natReprL n) := by
  by_cases h : n = 0
  · right
    subst h
    rfl
  · left
    unfold natReprL
    rw [if_neg h, List.head?_map, List.head?_reverse]
    have hne : Nat.digits 10 n ≠ [] := Nat.digits_ne_nil_iff_ne_zero.mpr h
    rw [List.getLast?_eq_getLast _ hne]
    intro hcontra
    injection hcontra with h2
    have hlast := Nat.getLast_digit_ne_zero 10 h
    have hlt : (Nat.digits 10 n).getLast hne < 10 :=
      Nat.digits_lt_base (by norm_num) (List.getLast_mem hne)
    have h4 := digitVal_digitChar _ hlt
    rw [h2] at h4
    have h0 : digitVal '0' = 0 := rfl
    rw [h0] at h4
    exact hlast h4.symm

theorem pyIntL_lower (l : List Char) (hd : digitsOnly l) (hne : l ≠ [])
    (hhead : l.head? ≠ some '0') : 10 ^ (l.length - 1) ≤ pyIntL l := by
  cases l with
  | nil => exact absurd rfl hne
  | cons c r =>
      have hc : isDigitChar c := hd c (by simp)
      have hc0 : c ≠ '0' := by
        intro h
        rw [h] at hhead
        exact hhead rfl
      have h1 : 1 ≤ digitVal c := by
        obtain ⟨ha, hb⟩ := hc
        have h48 : c.toNat ≠ 48 := by
          intro h48
          exact hc0 (Char.ext (UInt32.toNat.inj h48))
        simp only [digitVal]
        omega
      rw [pyIntL_cons]
      calc 10 ^ ((c :: r).length - 1) = 10 ^ r.length := by simp
      _ = 1 * 10 ^ r.length := (one_mul _).symm
      _ ≤ digitVal c * 10 ^ r.length := Nat.mul_le_mul_right _ h1
      _ ≤ digitVal c * 10 ^ r.length + pyIntL r := Nat.le_add_right _ _

theorem natReprL_of_pyIntL (s : List Char) (hd : digitsOnly s) (hne : s ≠ [])
    (hlz : leadZeroFree s) : natReprL (pyIntL s) = s := by
  rcases hlz with hhead | h0
  · have hup : pyIntL s < 10 ^ s.length := pyIntL_lt s hd
    have hlo : 10 ^ (s.length - 1) ≤ pyIntL s := pyIntL_lower s hd hne hhead
    have hlpos : 0 < s.length := List.length_pos.mpr hne
    have hr_len_le : (natReprL (pyIntL s)).length ≤ s.length :=
      natReprL_length_le _ _ hup hlpos
    have hr_lt : pyIntL s < 10 ^ (natReprL (pyIntL s)).length := by
      conv_lhs => rw [← pyIntL_natReprL (pyIntL s)]
      exact pyIntL_lt _ (natReprL_digitsOnly _)
    have hr_len_ge : s.length ≤ (natReprL (pyIntL s)).length := by
      by_contra hlt
      push_neg at hlt
      have hle : (10 : ℕ) ^ (natReprL (pyIntL s)).length ≤ 10 ^ (s.length - 1) :=
        Nat.pow_le_pow_right (by norm_num) (by omega)
      omega
    exact pyIntL_injective _ _ (by omega) (natReprL_digitsOnly _) hd
      (by rw [pyIntL_natReprL])
  · rw [h0]
    rfl

theorem intRepr_ofNat (n : Nat) : intRepr (n : Int) = natRepr n := by
  unfold intRepr
  rw [if_neg (not_lt.mpr (Int.ofNat_nonneg n)), Int.natAbs_ofNat]

/-! ### C4 — join-key normalization before the final merge -/

/-- C4 fails as frozen: the driver's cast is a plain `astype(str)`, not a
fixed-width zero-pad, so an integer-originating key and the zero-padded
string form of the same code do not agree: `1234` versus `"01234"`. -/
theorem c4_counterexample :
    pyInt "01234" = 1234 ∧
      pyStrCell (.cInt 1234) ≠ pyStrCell (.cStr "01234") := by
  refine ⟨by decide, ?_⟩
  intro h
  have h2 : natRepr 1234 = "01234" := by
    rw [← intRepr_ofNat 1234]
    exact h
  have h3 : (natReprL 1234).length ≤ 4 :=
    natReprL_length_le 1234 4 (by norm_num) (by norm_num)
  have h4 : (natReprL 1234).length = 5 :=
    congrArg (fun t : String => t.data.length) h2
  omega

/-- C4 (amended): before the final merge the driver normalizes both
`Tract_FIPS` columns with a plain string cast (`astype(str)`), not a
fixed-width zero-padded one; an integer-originating key agrees with a
formatted-string key exactly when the string is the minimal decimal
rendering of the integer (no leading zeros). (`main.py`'s copy of the driver
performs no cast at all before merging.) -/
theorem c4_join_key_normalization (n : Nat) (s : String)
    (hd : digitsOnly s.data) (hne : s.data ≠ []) :
    pyStrCell (.cInt (n : Int)) = pyStrCell (.cStr s)
      ↔ (pyInt s = n ∧ leadZeroFree s.data) := by
  obtain ⟨d⟩ := s
  show intRepr (n : Int) = (⟨d⟩ : String) ↔ _
  rw [intRepr_ofNat]
  constructor
  · intro h
    have hdata : natReprL n = d := congrArg String.data h
    constructor
    · show pyIntL d = n
      rw [← hdata, pyIntL_natReprL]
    · show leadZeroFree d
      rw [← hdata]
      exact natReprL_leadZeroFree n
  · rintro ⟨hv, hlz⟩
    have hv' : pyIntL d = n := hv
    have h2 : natReprL (pyIntL d) = d := natReprL_of_pyIntL d hd hne hlz
    rw [← hv']
    exact congrArg String.mk h2

/-- Witness for C4 at the county code 17031. -/
theorem c4_join_key_normalization_witness :
    pyStrCell (.cInt (17031 : Int)) = pyStrCell (.cStr "17031")
      ↔ (pyInt "17031" = 17031 ∧ leadZeroFree "17031".data) :=
  c4_join_key_normalization 17031 "17031" (by decide) (by decide)

/-! ### C7 — Spatial Point Loader failure modes -/

theorem schoolRowOf_error_shape {li ti ui : Nat} {row : List CellVal}
    {e : PipeError} (h : schoolRowOf li ti ui row = .error e) :
    ∃ msg, e = .GeometryError msg := by
  unfold schoolRowOf at h
  split at h
  · simp at h
  · injection h with h2
    exact ⟨_, h2.symm⟩

/-- C7: the Spatial Point Loader fails with a `DataLoadError` exactly when
the file is missing or one of the `lon` / `lat` / `universal-id` columns is
absent; it is a pure function of the file contents (no side effects beyond
reading), and on success it emits one point row per input row. -/
theorem c7_load_school_data (file : Option CsvFile) :
    ((∃ msg, load_school_data file = .error (.DataLoadError msg)) ↔
      (file = none ∨ ∃ f, file = some f ∧
        ("lon" ∉ f.header ∨ "lat" ∉ f.header ∨ "universal-id" ∉ f.header))) ∧
    (∀ f out, file = some f → load_school_data file = .ok out →
      out.length = f.rows.length) := by
  cases file with
  | none =>
      refine ⟨⟨fun _ => Or.inl rfl, fun _ => ⟨_, rfl⟩⟩, ?_⟩
      intro f out hf
      cases hf
  | some f =>
      by_cases hmem : "lon" ∈ f.header ∧ "lat" ∈ f.header ∧
          "universal-id" ∈ f.header
      · have hload : load_school_data (some f)
            = mapE (schoolRowOf (f.header.indexOf "lon")
              (f.header.indexOf "lat") (f.header.indexOf "universal-id"))
              f.rows := by
          simp only [load_school_data]
          rw [if_pos hmem]
        constructor
        · constructor
          · rintro ⟨msg, herr⟩
            rw [hload] at herr
            obtain ⟨x, -, hfx⟩ := mapE_error_mem herr
            obtain ⟨msg', heq⟩ := schoolRowOf_error_shape hfx
            cases heq
          · rintro (h | ⟨f', hf', hcols⟩)
            · cases h
            · cases hf'
              rcases hcols with h | h | h <;>
                exact absurd (by tauto : _ ∈ f.header) h
        · intro f' out hf' hok
          cases hf'
          rw [hload] at hok
          exact mapE_ok_length hok
      · have hload : load_school_data (some f)
            = .error (.DataLoadError "missing required column") := by
          simp only [load_school_data]
          rw [if_neg hmem]
        refine ⟨⟨fun _ => Or.inr ⟨f, rfl, ?_⟩, fun _ => ⟨_, hload⟩⟩, ?_⟩
        · by_cases h1 : "lon" ∈ f.header
          · by_cases h2 : "lat" ∈ f.header
            · exact Or.inr (Or.inr fun h3 => hmem ⟨h1, h2, h3⟩)
            · exact Or.inr (Or.inl h2)
          · exact Or.inl h1
        · intro f' out hf' hok
          cases hf'
          rw [hload] at hok
          cases hok

/-- Witness for C7 at a well-formed one-row file. -/
theorem c7_load_school_data_witness :
    ((∃ msg, load_school_data
        (some ⟨["lon", "lat", "universal-id"], [[.cInt 1, .cInt 2, .cStr "s1"]]⟩)
        = .error (.DataLoadError msg)) ↔
      ((some (⟨["lon", "lat", "universal-id"],
          [[.cInt 1, .cInt 2, .cStr "s1"]]⟩ : CsvFile) : Option CsvFile) = none ∨
        ∃ f, (some (⟨["lon", "lat", "universal-id"],
            [[.cInt 1, .cInt 2, .cStr "s1"]]⟩ : CsvFile) : Option CsvFile)
              = some f ∧
          ("lon" ∉ f.header ∨ "lat" ∉ f.header ∨ "universal-id" ∉ f.header))) ∧
    (∀ f out, (some (⟨["lon", "lat", "universal-id"],
          [[.cInt 1, .cInt 2, .cStr "s1"]]⟩ : CsvFile) : Option CsvFile)
        = some f →
      load_school_data
          (some ⟨["lon", "lat", "universal-id"], [[.cInt 1, .cInt 2, .cStr "s1"]]⟩)
        = .ok out →
      out.length = f.rows.length) :=
  c7_load_school_data
    (some ⟨["lon", "lat", "universal-id"], [[.cInt 1, .cInt 2, .cStr "s1"]]⟩)

end Ascending
